import Mathlib

/-!
Verification of the core game logic of the wild-adventure repository.

The TypeScript sources are shallowly embedded as Lean definitions:

* numbers that the game treats as integral counters (hit points, damage)
  are modelled as integers, frame timestamps and tile data as rationals
  or integers, and geometric quantities (positions, velocities, angles)
  as real numbers;
* Phaser.Math.Angle.Between(x1, y1, x2, y2) is Math.atan2(y2-y1, x2-x1),
  which is Complex.arg of the complex number (x2-x1) + (y2-y1) i;
* Phaser.Math.Distance.Between is the Euclidean distance (Real.sqrt of
  the sum of squares);
* the JavaScript idioms `a || b` (falsy fallback) and `a ?? b` (nullish
  fallback) on optional numeric fields are modelled explicitly on
  Option, with 0 counted as falsy for `||`;
* code that can throw a TypeError (indexing a missing array row) returns
  Option, with none standing for the thrown exception.
-/

namespace WildAdventure

/-! ## Constants (src/constants.ts) -/

def TILE_SIZE : ℚ := 32
def MAP_COLS : ℕ := 50
def MAP_ROWS : ℕ := 50
def ENEMY_SPEED : ℝ := 50
def CHASE_RANGE : ℝ := 128
def ATTACK_CD : ℚ := 1000
def MAX_HP : ℤ := 96
def HEART_HP : ℤ := 24
def ENEMY_DMG : ℤ := 24
def NUM_ENEMIES : ℕ := 5
def IFRAMES_DUR : ℚ := 800
def PROJ_LIFETIME : ℚ := 4000
def NUM_CHESTS : ℕ := 3
def TRIFORCE_BONUS_HP : ℤ := 192

/-! ## JavaScript fallback idioms on optional numeric fields -/

/-- JavaScript nullish coalescing a ?? d on an optional numeric field. -/
def jsNullish (o : Option ℝ) (d : ℝ) : ℝ :=
  o.getD d

/-- JavaScript a || d on an optional numeric field: undefined and 0 are
falsy, so both fall back to the default. -/
def jsOrQ (o : Option ℚ) (d : ℚ) : ℚ :=
  match o with
  | none => d
  | some v => if v = 0 then d else v

/-- JavaScript (hp || 1) on an integer field that is always present in
this codebase: 0 is falsy and falls back to the default. -/
def jsOrZ (v : ℤ) (d : ℤ) : ℤ :=
  if v = 0 then d else v

/-! ## Geometry helpers (Phaser.Math) -/

/-- A PositionedObject from src/types.ts: a structural record with x and y. -/
structure Pos where
  x : ℝ
  y : ℝ

/-- Phaser.Math.Angle.Between(x1, y1, x2, y2) = Math.atan2(y2 - y1, x2 - x1),
embedded as the complex argument of (x2 - x1) + (y2 - y1) i, which is
exactly atan2 of that pair. -/
noncomputable def angleBetween (x1 y1 x2 y2 : ℝ) : ℝ :=
  Complex.arg ⟨x2 - x1, y2 - y1⟩

/-- Phaser.Math.Distance.Between(x1, y1, x2, y2): Euclidean distance. -/
noncomputable def distanceBetween (x1 y1 x2 y2 : ℝ) : ℝ :=
  Real.sqrt ((x2 - x1) ^ 2 + (y2 - y1) ^ 2)

/-- Phaser.Math.Clamp(value, min, max). -/
def clampR (value lo hi : ℝ) : ℝ :=
  max lo (min hi value)

/-! ## Facing (gameSceneUtils.ts getFacingFromVelocity) -/

/-- The four cardinal facing directions of the player. -/
inductive Facing where
  | up
  | down
  | left
  | right
deriving DecidableEq, Repr

/-- getFacingFromVelocity from gameSceneUtils.ts: zero velocity preserves
the current facing; otherwise the axis of larger magnitude wins, with
horizontal taking priority on ties. -/
def getFacingFromVelocity (vx vy : ℚ) (currentFacing : Facing) : Facing :=
  if vx = 0 ∧ vy = 0 then currentFacing
  else if |vx| ≥ |vy| then
    if vx > 0 then Facing.right else Facing.left
  else
    if vy > 0 then Facing.down else Facing.up

/-! ## Knockback (gameSceneUtils.ts calcKnockbackVelocity) -/

/-- calcKnockbackVelocity from gameSceneUtils.ts: the angle from the damage
source to the player, turned into a velocity of the given force. -/
noncomputable def calcKnockbackVelocity (source player : Pos) (force : ℝ) : ℝ × ℝ :=
  let angle := angleBetween source.x source.y player.x player.y
  (Real.cos angle * force, Real.sin angle * force)

/-- JavaScript a || d on an optional real field (projSpeed || 80):
undefined and 0 are falsy. -/
noncomputable def jsOrR (o : Option ℝ) (d : ℝ) : ℝ :=
  match o with
  | none => d
  | some v => if v = 0 then d else v

/-! ## Enemy data model (src/types.ts GameEnemy) -/

/-- The enemy type tags of ENEMY_CONFIGS in src/constants.ts. -/
inductive EnemyType where
  | goblin
  | wizrobe
  | lynel
deriving DecidableEq, Repr

/-- A GameEnemy: a Phaser arcade sprite augmented with the custom fields the
game attaches in _createEnemies.  Velocity, tint and scale stand for the
sprite state touched by setVelocity, setTint/clearTint and setScale; the
body enable flag is body.enable. -/
structure Enemy where
  type : EnemyType
  hp : ℤ
  isDying : Bool
  bodyEnabled : Bool
  x : ℝ
  y : ℝ
  vx : ℝ
  vy : ℝ
  tint : Option ℕ
  scale : ℝ
  speedMult : Option ℝ
  shoots : Bool
  projSpeed : Option ℝ
  shootCd : Option ℚ
  lastShotTime : Option ℚ
  patrolTimer : ℚ
  patrolTargetX : ℝ
  patrolTargetY : ℝ
  isChasing : Bool

/-! ## Enemy damage (GameScene.ts _damageEnemy and _killEnemy) -/

/-- GameScene._killEnemy: no-op on an enemy already dying, otherwise marks it
dying and disables its physics body.  The scene kill counter, the death
particle effect and the tween that later drops a heart and destroys the
sprite are scene or render effects outside the enemy record. -/
def killEnemy (e : Enemy) : Enemy :=
  if e.isDying then e
  else { e with isDying := true, bodyEnabled := false }

/-- GameScene._damageEnemy: returns unchanged on a dying enemy; otherwise
decrements hp via the JavaScript (hp || 1) - 1, flashes the sprite white,
and delegates to _killEnemy exactly when the new hp is at most 0.  The
delayed 150 ms clearTint is a timer-based render effect, not immediate
state. -/
def damageEnemy (e : Enemy) : Enemy :=
  if e.isDying then e
  else
    let e1 := { e with hp := jsOrZ e.hp 1 - 1, tint := some 0xffffff }
    if e1.hp ≤ 0 then killEnemy e1 else e1

/-! ## Player state and damage (GameScene.ts init, _damagePlayer, heart pickup) -/

/-- The mutable player-session state reset by GameScene.init and touched by
the damage and heal flows.  Velocity and tint stand for the player sprite
state set through setVelocity and setTint. -/
structure PlayerState where
  playerHP : ℤ
  facing : Facing
  isAttacking : Bool
  lastAttackTime : ℚ
  lastHitTime : ℚ
  enemiesKilled : ℕ
  gameOver : Bool
  victory : Bool
  vx : ℝ
  vy : ℝ
  tint : Option ℕ

/-- GameScene.init: the state every session and restart begins with. -/
def initPlayerState : PlayerState :=
  { playerHP := MAX_HP
    facing := Facing.down
    isAttacking := false
    lastAttackTime := 0
    lastHitTime := 0
    enemiesKilled := 0
    gameOver := false
    victory := false
    vx := 0
    vy := 0
    tint := none }

/-- GameScene._damagePlayer: inside the invincibility window the call returns
with no change at all; otherwise it stamps lastHitTime, subtracts ENEMY_DMG,
applies the knockback velocity away from the source, tints the player red,
and when HP reaches or passes 0 clamps it to 0 and runs _showGameOver (which
zeroes the velocity and tints the player grey).  The camera shake and the
delayed clearTint are render effects. -/
noncomputable def damagePlayer (s : PlayerState) (source player : Pos) (now : ℚ) : PlayerState :=
  if now - s.lastHitTime < IFRAMES_DUR then s
  else
    let s1 := { s with lastHitTime := now, playerHP := s.playerHP - ENEMY_DMG }
    let k := calcKnockbackVelocity source player 300
    let s2 := { s1 with vx := k.1, vy := k.2, tint := some 0xff0000 }
    if s2.playerHP ≤ 0 then
      { s2 with playerHP := 0, gameOver := true, vx := 0, vy := 0, tint := some 0x666666 }
    else s2

/-- The heart pickup overlap callback registered in GameScene._createEnemies:
heal by HEART_HP, capped at MAX_HP. -/
def heartPickup (s : PlayerState) : PlayerState :=
  { s with playerHP := min MAX_HP (s.playerHP + HEART_HP) }

/-- One player-state mutation of the damage or heal flow, for stating the HP
bounds invariant over arbitrary interleavings. -/
inductive PlayerOp where
  | damage (source player : Pos) (now : ℚ)
  | heart

/-- Apply one player-state operation. -/
noncomputable def applyPlayerOp (s : PlayerState) : PlayerOp → PlayerState
  | PlayerOp.damage source player now => damagePlayer s source player now
  | PlayerOp.heart => heartPickup s

/-- Run a session: init followed by any sequence of damage and heal events. -/
noncomputable def runPlayerOps (ops : List PlayerOp) : PlayerState :=
  ops.foldl applyPlayerOp initPlayerState

/-! ## Chest-era heart pickup (modelled from the spec)

The repository ships constants for the chest / triforce feature
(NUM_CHESTS, CHEST_CONTENTS, TRIFORCE_BONUS_HP in src/constants.ts) and the
StartScene advertises it, but the GameScene variant that opens chests and
raises the HP cap is not among the source files; only its declarations are.
The two definitions below are therefore modelled from the spec. -/

/-- Modelled from the spec: the effective maximum player HP, which is MAX_HP
until every chest reward (triforce piece) has been collected and
TRIFORCE_BONUS_HP from then on.  The chest-opening GameScene code itself is
missing from the sources; only src/constants.ts declares the values. -/
def effectiveMaxHP (piecesCollected : ℕ) : ℤ :=
  if NUM_CHESTS ≤ piecesCollected then TRIFORCE_BONUS_HP else MAX_HP

/-- Modelled from the spec: the heart pickup of the chest-enabled variant,
healing by the fixed heart amount capped at the current effective maximum. -/
def heartPickupChestEra (piecesCollected : ℕ) (hp : ℤ) : ℤ :=
  min (effectiveMaxHP piecesCollected) (hp + HEART_HP)

/-! ## Enemy AI (gameSceneUtils.ts updateEnemy, updateEnemies;
GameScene.ts _updateEnemies, _enemyShoot) -/

/-- The three Phaser.Math.Between draws a patrol re-roll consumes: the new
patrol timer from Between(2000, 4000) and the target offsets from
Between(-80, 80). -/
structure PatrolRng where
  newTimer : ℚ
  dx : ℝ
  dy : ℝ

/-- The chase-or-patrol half of updateEnemy: within CHASE_RANGE the velocity
points at the player scaled by ENEMY_SPEED times the speed multiplier and the
sprite is tinted; otherwise the patrol timer counts down 16 ms, expiring
re-rolls a clamped target near the enemy, and the enemy moves toward the
target at half speed until within tolerance 4. -/
noncomputable def chaseOrPatrol (rng : PatrolRng) (e : Enemy) (player : Pos) (dist : ℝ) : Enemy :=
  let speed := ENEMY_SPEED * jsNullish e.speedMult 1
  if dist < CHASE_RANGE then
    let angle := angleBetween e.x e.y player.x player.y
    { e with isChasing := true
             vx := Real.cos angle * speed
             vy := Real.sin angle * speed
             tint := some 0xff8888 }
  else
    let e1 := { e with isChasing := false, tint := none, patrolTimer := e.patrolTimer - 16 }
    let e2 :=
      if e1.patrolTimer ≤ 0 then
        { e1 with patrolTimer := rng.newTimer
                  patrolTargetX := clampR (e1.x + rng.dx) ((TILE_SIZE : ℝ) * 2)
                    (((MAP_COLS : ℝ) - 2) * (TILE_SIZE : ℝ))
                  patrolTargetY := clampR (e1.y + rng.dy) ((TILE_SIZE : ℝ) * 2)
                    (((MAP_ROWS : ℝ) - 2) * (TILE_SIZE : ℝ)) }
      else e1
    let pdist := distanceBetween e2.x e2.y e2.patrolTargetX e2.patrolTargetY
    if pdist > 4 then
      let angle := angleBetween e2.x e2.y e2.patrolTargetX e2.patrolTargetY
      { e2 with vx := Real.cos angle * speed * 0.5, vy := Real.sin angle * speed * 0.5 }
    else
      { e2 with vx := 0, vy := 0 }

/-- The wizrobe shooting block of updateEnemy, exactly as the extracted code
has it: inside extended range and past the cooldown it stamps lastShotTime
with the current time and does nothing else (the comment in the source says
the actual shot is delegated, but no caller performs it).  The defensive
falsy check makes the stamp some 0 when the timer was missing or 0. -/
noncomputable def shootStep (e : Enemy) (dist : ℝ) (time : ℚ) : Enemy :=
  if e.shoots ∧ dist < CHASE_RANGE * 1.5 then
    let ls := e.lastShotTime.getD 0
    let cd := jsOrQ e.shootCd 2500
    if time - ls > cd then { e with lastShotTime := some time }
    else { e with lastShotTime := some ls }
  else e

/-- The bob animation at the end of updateEnemy: lynels use base scale 1.2,
everyone else 1. -/
noncomputable def bobStep (e : Enemy) (time : ℚ) : Enemy :=
  let baseScale : ℝ := if e.type = EnemyType.lynel then 1.2 else 1
  { e with scale := baseScale + Real.sin ((time : ℝ) * 0.005 + e.x) * 0.05 }

/-- gameSceneUtils.ts updateEnemy: immediately returns a dying enemy
untouched; otherwise computes the distance to the player once and runs the
chase-or-patrol movement, the shoot block and the bob animation in the order
of the source. -/
noncomputable def updateEnemy (rng : PatrolRng) (e : Enemy) (player : Pos) (time : ℚ) : Enemy :=
  if e.isDying then e
  else
    let dist := distanceBetween e.x e.y player.x player.y
    bobStep (shootStep (chaseOrPatrol rng e player dist) dist time) time

/-- A wizrobe projectile sprite: position, velocity and rotation. -/
structure Projectile where
  x : ℝ
  y : ℝ
  vx : ℝ
  vy : ℝ
  rotation : ℝ

/-- gameSceneUtils.ts calcProjectileParams: aim angle plus a start position
offset 16 px along the aim vector (returned as (angle, startX, startY)). -/
noncomputable def calcProjectileParams (enemy player : Pos) : ℝ × ℝ × ℝ :=
  let angle := angleBetween enemy.x enemy.y player.x player.y
  (angle, enemy.x + Real.cos angle * 16, enemy.y + Real.sin angle * 16)

/-- GameScene._enemyShoot: the projectile it would create for a shooter —
spawned at the offset start position, rotated toward the player, moving at
projSpeed || 80 along the aim.  In the current scene this method has no
caller on the per-frame path. -/
noncomputable def enemyShoot (e : Enemy) (player : Pos) : Projectile :=
  let p := calcProjectileParams ⟨e.x, e.y⟩ player
  let speed := jsOrR e.projSpeed 80
  { x := p.2.1
    y := p.2.2
    vx := Real.cos p.1 * speed
    vy := Real.sin p.1 * speed
    rotation := p.1 }

/-- gameSceneUtils.ts updateEnemies: run updateEnemy on every enemy of the
group, each patrol re-roll drawing fresh randomness. -/
noncomputable def updateEnemiesFrom (rng : ℕ → PatrolRng) (player : Pos) (time : ℚ) :
    ℕ → List Enemy → List Enemy
  | _, [] => []
  | i, e :: es => updateEnemy (rng i) e player time :: updateEnemiesFrom rng player time (i + 1) es

/-- The enemy-side state a frame of _updateEnemies can touch: the enemies
group and the enemyProjectiles group. -/
structure EnemiesSceneState where
  enemies : List Enemy
  projectiles : List Projectile

/-- GameScene._updateEnemies: delegates wholly to gameSceneUtils.updateEnemies,
which only runs updateEnemy per enemy; nothing on this path calls
_enemyShoot, so the projectile group is untouched. -/
noncomputable def sceneUpdateEnemies (rng : ℕ → PatrolRng) (st : EnemiesSceneState)
    (player : Pos) (time : ℚ) : EnemiesSceneState :=
  { st with enemies := updateEnemiesFrom rng player time 0 st.enemies }

/-! ## Procedural map generation (src/map.ts generateMap)

JavaScript array semantics are modelled explicitly: reading map[r] for an
index outside the array yields undefined, so a subsequent element write
throws a TypeError (the Option result, none); writing row[c] past the end
extends the row (holes would be undefined, modelled by the sentinel -1);
writing at a negative index stores a non-element property and leaves the
array elements alone. -/

/-- JavaScript arr[i] as an element read: some element for 0 <= i < length,
none for undefined. -/
def jsIndex {α : Type} (l : List α) (i : ℤ) : Option α :=
  if 0 ≤ i then l[i.toNat]? else none

/-- JavaScript row[i] = v on an array of numbers: in-bounds writes set the
element, writes past the end extend the array (holes as the sentinel -1),
negative indices leave the elements unchanged. -/
def jsArraySet (row : List ℤ) (i : ℤ) (v : ℤ) : List ℤ :=
  if i < 0 then row
  else if i.toNat < row.length then row.set i.toNat v
  else row ++ List.replicate (i.toNat - row.length) (-1) ++ [v]

/-- JavaScript map[r][c] = v: reading a missing row throws (none), otherwise
the row is updated with JavaScript write semantics. -/
def jsWriteCell (m : List (List ℤ)) (r c : ℤ) (v : ℤ) : Option (List (List ℤ)) :=
  match jsIndex m r with
  | none => none
  | some row => some (m.set r.toNat (jsArraySet row c v))

/-- The cell-filling double loop of generateMap: border walls of 1, a cleared
5 by 5 spawn area around the centre, then the random 80/12/8 split between
grass, tree and rock.  The rng argument stands for the successive
Math.random() draws, one per non-border non-spawn cell, indexed by the cell
for clarity (the source consumes them in row-major order). -/
def initialMap (cols rows : ℕ) (rng : ℕ → ℕ → ℚ) : List (List ℤ) :=
  (List.range rows).map (fun r =>
    (List.range cols).map (fun c =>
      if r = 0 ∨ r = rows - 1 ∨ c = 0 ∨ c = cols - 1 then 1
      else
        let cx : ℤ := (cols / 2 : ℕ)
        let cy : ℤ := (rows / 2 : ℕ)
        if |(c : ℤ) - cx| < 3 ∧ |(r : ℤ) - cy| < 3 then 0
        else
          let rnd := rng r c
          if rnd < 0.80 then 0 else if rnd < 0.92 then 1 else 2))

/-- One step of the horizontal carve: write 0 at map[midR][c] and then at
map[midR - 1][c]. -/
def carveStepH (midR : ℤ) (o : Option (List (List ℤ))) (c : ℕ) : Option (List (List ℤ)) :=
  o.bind (fun m => (jsWriteCell m midR c 0).bind (fun m2 => jsWriteCell m2 (midR - 1) c 0))

/-- The horizontal carve loop of generateMap: for c from 1 while c < cols - 1. -/
def carveHorizontal (m : List (List ℤ)) (cols rows : ℕ) : Option (List (List ℤ)) :=
  (List.range' 1 (cols - 2)).foldl (carveStepH ((rows / 2 : ℕ) : ℤ)) (some m)

/-- One step of the vertical carve: write 0 at map[r][midC] and then at
map[r][midC + 1]. -/
def carveStepV (midC : ℤ) (o : Option (List (List ℤ))) (r : ℕ) : Option (List (List ℤ)) :=
  o.bind (fun m => (jsWriteCell m r midC 0).bind (fun m2 => jsWriteCell m2 r (midC + 1) 0))

/-- The vertical carve loop of generateMap: for r from 1 while r < rows - 1. -/
def carveVertical (m : List (List ℤ)) (cols rows : ℕ) : Option (List (List ℤ)) :=
  (List.range' 1 (rows - 2)).foldl (carveStepV ((cols / 2 : ℕ) : ℤ)) (some m)

/-- src/map.ts generateMap: build the random grid, then carve the two
straight cross-paths through the centre.  none records a thrown TypeError
(possible when a carve touches a row index outside the grid). -/
def generateMap (cols rows : ℕ) (rng : ℕ → ℕ → ℚ) : Option (List (List ℤ)) :=
  (carveHorizontal (initialMap cols rows rng) cols rows).bind
    (fun m => carveVertical m cols rows)

/-! ## Chest placement (src/map.ts generateChestPositions) -/

/-- A world-space chest position (ChestPosition in src/map.ts). -/
structure ChestPosition where
  x : ℚ
  y : ℚ
deriving DecidableEq, Repr

/-- Math.hypot(dx, dy) < c for a nonnegative threshold c, phrased through
squares so it stays in the rationals; for 0 <= c this is exactly the
comparison the source makes. -/
def hypotLt (dx dy c : ℚ) : Bool :=
  decide (dx ^ 2 + dy ^ 2 < c ^ 2)

/-- The rejection-sampling loop of generateChestPositions.  fuel is the
number of attempts the 1000 cap still allows; attempts feeds the rng (the
2k-th draw picks the column of attempt k, the next one its row).  A sampled
tile is rejected when it is not grass (an undefined read past a short row is
not 0, so it is also rejected), when it sits in the 7 by 7 spawn exclusion
around the centre, or when it is within minSep of an already chosen chest;
reading a missing row throws (none). -/
def chestLoop (map : List (List ℤ)) (count cols rows : ℕ) (rng : ℕ → ℚ) :
    ℕ → ℕ → List ChestPosition → Option (List ChestPosition)
  | 0, _, positions => some positions
  | fuel + 1, attempts, positions =>
    if positions.length < count then
      let c : ℤ := ⌊rng (2 * attempts) * ((cols : ℚ) - 4)⌋ + 2
      let r : ℤ := ⌊rng (2 * attempts + 1) * ((rows : ℚ) - 4)⌋ + 2
      match jsIndex map r with
      | none => none
      | some row =>
        match jsIndex row c with
        | none => chestLoop map count cols rows rng fuel (attempts + 1) positions
        | some tile =>
          if tile ≠ 0 then chestLoop map count cols rows rng fuel (attempts + 1) positions
          else
            let cx : ℤ := (cols / 2 : ℕ)
            let cy : ℤ := (rows / 2 : ℕ)
            if |c - cx| < 4 ∧ |r - cy| < 4 then
              chestLoop map count cols rows rng fuel (attempts + 1) positions
            else
              let wx : ℚ := c * TILE_SIZE + TILE_SIZE / 2
              let wy : ℚ := r * TILE_SIZE + TILE_SIZE / 2
              let minSep : ℚ := 6 * TILE_SIZE
              if positions.any (fun p => hypotLt (p.x - wx) (p.y - wy) minSep) then
                chestLoop map count cols rows rng fuel (attempts + 1) positions
              else
                chestLoop map count cols rows rng fuel (attempts + 1)
                  (positions ++ [{ x := wx, y := wy }])
    else some positions

/-- src/map.ts generateChestPositions: rejection-sample up to 1000 attempts,
returning at most count well-separated grass positions. -/
def generateChestPositions (map : List (List ℤ)) (count cols rows : ℕ)
    (rng : ℕ → ℚ) : Option (List ChestPosition) :=
  chestLoop map count cols rows rng 1000 0 []

/-! ## Shared helper lemmas -/

/-- Inside the invincibility window _damagePlayer returns the state
unchanged. -/
theorem damagePlayer_guard {s : PlayerState} (source player : Pos) {now : ℚ}
    (h : now - s.lastHitTime < IFRAMES_DUR) :
    damagePlayer s source player now = s := by
  unfold damagePlayer
  exact if_pos h

/-- When _damagePlayer applies damage, it stamps lastHitTime with the call
time. -/
theorem damagePlayer_lastHitTime {s : PlayerState} (source player : Pos) {now : ℚ}
    (h : ¬ now - s.lastHitTime < IFRAMES_DUR) :
    (damagePlayer s source player now).lastHitTime = now := by
  unfold damagePlayer
  rw [if_neg h]
  dsimp only
  split <;> rfl

/-! ## Claim theorems -/

/-- C7: for every nonzero velocity vector the reported cardinal direction is
determined by the larger-magnitude axis — right or left by the sign of vx
when the magnitude of vx is at least that of vy, down or up by the sign of
vy otherwise — and the zero vector returns the previous facing unchanged. -/
theorem C7_facing_snap :
    (∀ (vx vy : ℚ) (f : Facing), ¬(vx = 0 ∧ vy = 0) → |vy| ≤ |vx| →
      getFacingFromVelocity vx vy f = (if 0 < vx then Facing.right else Facing.left)) ∧
    (∀ (vx vy : ℚ) (f : Facing), |vx| < |vy| →
      getFacingFromVelocity vx vy f = (if 0 < vy then Facing.down else Facing.up)) ∧
    (∀ f : Facing, getFacingFromVelocity 0 0 f = f) := by
  refine ⟨?_, ?_, ?_⟩
  · intro vx vy f hnz h
    unfold getFacingFromVelocity
    rw [if_neg hnz, if_pos h]
  · intro vx vy f h
    have hnz : ¬(vx = 0 ∧ vy = 0) := by
      rintro ⟨h1, h2⟩
      rw [h1, h2] at h
      simp at h
    unfold getFacingFromVelocity
    rw [if_neg hnz, if_neg (not_le.mpr h)]
  · intro f
    rfl

/-- Witness for C7 at concrete inputs. -/
theorem C7_facing_snap_witness :
    getFacingFromVelocity 5 3 Facing.down = (if (0:ℚ) < 5 then Facing.right else Facing.left) ∧
    getFacingFromVelocity 0 0 Facing.up = Facing.up :=
  ⟨C7_facing_snap.1 5 3 Facing.down (by norm_num) (by norm_num),
   C7_facing_snap.2.2 Facing.up⟩

/-- C8: the knockback vector has magnitude equal to the force and points from
the damage source toward the player, and for source (0,0), player (100,0)
and force 300 it is exactly (300, 0). -/
theorem C8_knockback :
    (∀ (source player : Pos) (force : ℝ), 0 ≤ force →
      ¬(player.x = source.x ∧ player.y = source.y) →
      Real.sqrt ((calcKnockbackVelocity source player force).1 ^ 2 +
        (calcKnockbackVelocity source player force).2 ^ 2) = force ∧
      ∃ lam : ℝ, 0 ≤ lam ∧
        (calcKnockbackVelocity source player force).1 = lam * (player.x - source.x) ∧
        (calcKnockbackVelocity source player force).2 = lam * (player.y - source.y)) ∧
    calcKnockbackVelocity ⟨0, 0⟩ ⟨100, 0⟩ 300 = (300, 0) := by
  constructor
  · intro source player force hf hne
    set z : ℂ := ⟨player.x - source.x, player.y - source.y⟩ with hz
    have hz0 : z ≠ 0 := by
      intro h0
      apply hne
      have hre := congrArg Complex.re h0
      have him := congrArg Complex.im h0
      simp [hz] at hre him
      exact ⟨sub_eq_zero.mp hre, sub_eq_zero.mp him⟩
    have hcos : Real.cos (angleBetween source.x source.y player.x player.y)
        = z.re / Complex.abs z := by
      rw [angleBetween]
      exact Complex.cos_arg hz0
    have hsin : Real.sin (angleBetween source.x source.y player.x player.y)
        = z.im / Complex.abs z := by
      rw [angleBetween]
      exact Complex.sin_arg z
    constructor
    · have : (calcKnockbackVelocity source player force).1 ^ 2 +
          (calcKnockbackVelocity source player force).2 ^ 2 = force ^ 2 := by
        simp only [calcKnockbackVelocity]
        have hpy := Real.sin_sq_add_cos_sq
          (angleBetween source.x source.y player.x player.y)
        nlinarith [hpy]
      rw [this]
      exact Real.sqrt_sq hf
    · refine ⟨force / Complex.abs z, div_nonneg hf (Complex.abs.nonneg z), ?_, ?_⟩
      · simp only [calcKnockbackVelocity, hcos, hz]
        ring
      · simp only [calcKnockbackVelocity, hsin, hz]
        ring
  · have harg : angleBetween 0 0 100 0 = 0 := by
      rw [angleBetween]
      have : (⟨100 - 0, 0 - 0⟩ : ℂ) = ((100 : ℝ) : ℂ) := by
        apply Complex.ext <;> simp
      rw [this]
      exact Complex.arg_ofReal_of_nonneg (by norm_num)
    simp only [calcKnockbackVelocity]
    rw [harg]
    simp

/-- Witness for C8 at the concrete input of the spec. -/
theorem C8_knockback_witness :
    Real.sqrt ((calcKnockbackVelocity ⟨0, 0⟩ ⟨100, 0⟩ 300).1 ^ 2 +
      (calcKnockbackVelocity ⟨0, 0⟩ ⟨100, 0⟩ 300).2 ^ 2) = 300 ∧
    ∃ lam : ℝ, 0 ≤ lam ∧
      (calcKnockbackVelocity ⟨0, 0⟩ ⟨100, 0⟩ 300).1 = lam * ((Pos.mk 100 0).x - (Pos.mk 0 0).x) ∧
      (calcKnockbackVelocity ⟨0, 0⟩ ⟨100, 0⟩ 300).2 = lam * ((Pos.mk 100 0).y - (Pos.mk 0 0).y) :=
  C8_knockback.1 ⟨0, 0⟩ ⟨100, 0⟩ 300 (by norm_num) (by norm_num)

/-- C1: a damage call on a dying enemy changes nothing; on a live enemy each
call decrements hp by exactly one (whenever hp is nonzero) and the enemy is
killed exactly when the decremented hp reaches zero; in particular an enemy
starting at hp = 3 is alive after one and after two activations and dead
after exactly three. -/
theorem C1_kill_threshold :
    (∀ e : Enemy, e.isDying = true → damageEnemy e = e) ∧
    (∀ e : Enemy, e.isDying = false → e.hp ≠ 0 → (damageEnemy e).hp = e.hp - 1) ∧
    (∀ e : Enemy, e.isDying = false → ((damageEnemy e).isDying = true ↔ e.hp ≤ 1)) ∧
    (∀ e : Enemy, e.isDying = false → e.hp = 3 →
      (damageEnemy e).isDying = false ∧
      (damageEnemy (damageEnemy e)).isDying = false ∧
      (damageEnemy (damageEnemy (damageEnemy e))).isDying = true) := by
  have hdead : ∀ e : Enemy, e.isDying = true → damageEnemy e = e := by
    intro e h
    unfold damageEnemy
    rw [if_pos h]
  have hhp : ∀ e : Enemy, e.isDying = false → e.hp ≠ 0 → (damageEnemy e).hp = e.hp - 1 := by
    intro e h hz
    unfold damageEnemy
    rw [if_neg (by simp [h]), jsOrZ, if_neg hz]
    dsimp only
    split
    · unfold killEnemy
      rw [if_neg (by simp [h])]
    · rfl
  have hkill : ∀ e : Enemy, e.isDying = false → ((damageEnemy e).isDying = true ↔ e.hp ≤ 1) := by
    intro e h
    unfold damageEnemy
    rw [if_neg (by simp [h])]
    dsimp only
    unfold jsOrZ
    by_cases hz : e.hp = 0
    · rw [if_pos hz]
      norm_num
      unfold killEnemy
      rw [if_neg (by simp [h])]
      simp [hz]
    · rw [if_neg hz]
      by_cases hle : e.hp - 1 ≤ 0
      · rw [if_pos hle]
        unfold killEnemy
        rw [if_neg (by simp [h])]
        simp
        omega
      · rw [if_neg hle]
        simp [h]
        omega
  have hlive : ∀ e : Enemy, e.isDying = false → e.hp ≠ 0 → ¬ e.hp ≤ 1 →
      (damageEnemy e).isDying = false := by
    intro e h hz hle
    have := hkill e h
    rcases Bool.eq_false_or_eq_true (damageEnemy e).isDying with hd | hd
    · exact absurd (this.mp hd) hle
    · exact hd
  refine ⟨hdead, hhp, hkill, ?_⟩
  intro e h h3
  have h1d : (damageEnemy e).isDying = false := hlive e h (by omega) (by omega)
  have h1hp : (damageEnemy e).hp = 2 := by rw [hhp e h (by omega)]; omega
  have h2d : (damageEnemy (damageEnemy e)).isDying = false :=
    hlive _ h1d (by omega) (by omega)
  have h2hp : (damageEnemy (damageEnemy e)).hp = 1 := by
    rw [hhp _ h1d (by omega)]; omega
  have h3d : (damageEnemy (damageEnemy (damageEnemy e))).isDying = true :=
    (hkill _ h2d).mpr (by omega)
  exact ⟨h1d, h2d, h3d⟩

/-- A concrete lynel as _createEnemies builds it: hp 3, not dying. -/
noncomputable def lynelTest : Enemy :=
  { type := EnemyType.lynel
    hp := 3
    isDying := false
    bodyEnabled := true
    x := 0
    y := 0
    vx := 0
    vy := 0
    tint := none
    scale := 1.2
    speedMult := some 0.4
    shoots := false
    projSpeed := none
    shootCd := none
    lastShotTime := none
    patrolTimer := 0
    patrolTargetX := 0
    patrolTargetY := 0
    isChasing := false }

/-- Witness for C1 on a concrete hp-3 lynel. -/
theorem C1_kill_threshold_witness :
    (damageEnemy lynelTest).isDying = false ∧
    (damageEnemy (damageEnemy lynelTest)).isDying = false ∧
    (damageEnemy (damageEnemy (damageEnemy lynelTest))).isDying = true :=
  C1_kill_threshold.2.2.2 lynelTest rfl rfl

/-- C2: the chest-era heart pickup heals by the heart amount capped at the
effective maximum, the effective maximum is 96 before all chests are
collected and 192 once they all are, and after all chests a heart can heal
the player above 96. -/
theorem C2_heart_effective_cap :
    (∀ (n : ℕ) (hp : ℤ), heartPickupChestEra n hp ≤ effectiveMaxHP n) ∧
    (∀ (n : ℕ) (hp : ℤ), hp + HEART_HP ≤ effectiveMaxHP n →
      heartPickupChestEra n hp = hp + HEART_HP) ∧
    effectiveMaxHP NUM_CHESTS = TRIFORCE_BONUS_HP ∧
    (∀ n : ℕ, n < NUM_CHESTS → effectiveMaxHP n = MAX_HP) ∧
    MAX_HP < heartPickupChestEra NUM_CHESTS MAX_HP := by
  refine ⟨?_, ?_, ?_, ?_, ?_⟩
  · intro n hp
    exact min_le_left _ _
  · intro n hp h
    exact min_eq_right h
  · decide
  · intro n h
    unfold effectiveMaxHP
    rw [if_neg (by omega)]
  · decide

/-- Witness for C2: an uncapped heal at 0 pieces. -/
theorem C2_heart_effective_cap_witness :
    heartPickupChestEra 0 10 = 10 + HEART_HP :=
  C2_heart_effective_cap.2.1 0 10 (by decide)

/-- C6: after a _damagePlayer call that applies damage at time t, any further
_damagePlayer call strictly inside the following IFRAMES_DUR window returns
with the entire player state unchanged — HP, lastHitTime, velocity, tint and
game-over flag included. -/
theorem C6_iframes_idempotent :
    ∀ (s : PlayerState) (src p src2 p2 : Pos) (t t2 : ℚ),
      ¬ t - s.lastHitTime < IFRAMES_DUR → t2 - t < IFRAMES_DUR →
      damagePlayer (damagePlayer s src p t) src2 p2 t2 = damagePlayer s src p t := by
  intro s src p src2 p2 t t2 h1 h2
  apply damagePlayer_guard
  rw [damagePlayer_lastHitTime src p h1]
  exact h2

/-- Witness for C6: a hit at 1000 ms followed by an overlap at 1500 ms. -/
theorem C6_iframes_idempotent_witness :
    damagePlayer (damagePlayer initPlayerState ⟨0, 0⟩ ⟨10, 0⟩ 1000) ⟨0, 0⟩ ⟨10, 0⟩ 1500 =
      damagePlayer initPlayerState ⟨0, 0⟩ ⟨10, 0⟩ 1000 :=
  C6_iframes_idempotent initPlayerState ⟨0, 0⟩ ⟨10, 0⟩ ⟨0, 0⟩ ⟨10, 0⟩ 1000 1500
    (by norm_num [initPlayerState, IFRAMES_DUR]) (by norm_num [IFRAMES_DUR])

/-- C9: starting from init (96 HP), any sequence of damage applications and
heart pickups keeps the player HP inside the closed interval from 0 to
MAX_HP = 96. -/
theorem C9_hp_bounds :
    ∀ ops : List PlayerOp,
      0 ≤ (runPlayerOps ops).playerHP ∧ (runPlayerOps ops).playerHP ≤ MAX_HP := by
  have hstep : ∀ (s : PlayerState) (op : PlayerOp),
      0 ≤ s.playerHP ∧ s.playerHP ≤ MAX_HP →
      0 ≤ (applyPlayerOp s op).playerHP ∧ (applyPlayerOp s op).playerHP ≤ MAX_HP := by
    intro s op hs
    cases op with
    | damage src p now =>
      show 0 ≤ (damagePlayer s src p now).playerHP ∧
        (damagePlayer s src p now).playerHP ≤ MAX_HP
      unfold damagePlayer
      split
      · exact hs
      · dsimp only
        split
        · constructor
          · norm_num
          · norm_num [MAX_HP]
        · rename_i hgt
          dsimp only at hgt ⊢
          unfold MAX_HP ENEMY_DMG at *
          omega
    | heart =>
      show 0 ≤ (heartPickup s).playerHP ∧ (heartPickup s).playerHP ≤ MAX_HP
      unfold heartPickup MAX_HP HEART_HP at *
      dsimp only at *
      omega
  have hfold : ∀ (ops : List PlayerOp) (s : PlayerState),
      0 ≤ s.playerHP ∧ s.playerHP ≤ MAX_HP →
      0 ≤ (ops.foldl applyPlayerOp s).playerHP ∧
        (ops.foldl applyPlayerOp s).playerHP ≤ MAX_HP := by
    intro ops
    induction ops with
    | nil => intro s hs; exact hs
    | cons op rest ih =>
      intro s hs
      exact ih (applyPlayerOp s op) (hstep s op hs)
  intro ops
  exact hfold ops initPlayerState (by norm_num [initPlayerState, MAX_HP])

/-- C10: updateEnemy is a complete no-op on an enemy flagged dying — the
returned enemy is identical in every field, for every player position, time
and randomness. -/
theorem C10_dying_frozen :
    ∀ (rng : PatrolRng) (e : Enemy) (p : Pos) (t : ℚ),
      e.isDying = true → updateEnemy rng e p t = e := by
  intro rng e p t h
  unfold updateEnemy
  rw [if_pos h]

/-- A concrete dying goblin. -/
noncomputable def dyingGoblinTest : Enemy :=
  { type := EnemyType.goblin
    hp := 0
    isDying := true
    bodyEnabled := false
    x := 64
    y := 64
    vx := 0
    vy := 0
    tint := none
    scale := 1
    speedMult := some 1
    shoots := false
    projSpeed := none
    shootCd := none
    lastShotTime := none
    patrolTimer := 500
    patrolTargetX := 64
    patrolTargetY := 64
    isChasing := false }

/-- Witness for C10 on a concrete dying enemy. -/
theorem C10_dying_frozen_witness :
    updateEnemy ⟨3000, 10, 10⟩ dyingGoblinTest ⟨0, 0⟩ 1234 = dyingGoblinTest :=
  C10_dying_frozen ⟨3000, 10, 10⟩ dyingGoblinTest ⟨0, 0⟩ 1234 rfl

/-- The movement half of updateEnemy never touches the shoot flag. -/
theorem chaseOrPatrol_shoots (rng : PatrolRng) (e : Enemy) (p : Pos) (d : ℝ) :
    (chaseOrPatrol rng e p d).shoots = e.shoots := by
  unfold chaseOrPatrol
  dsimp only
  split_ifs <;> rfl

/-- The movement half of updateEnemy never touches the shot cooldown. -/
theorem chaseOrPatrol_shootCd (rng : PatrolRng) (e : Enemy) (p : Pos) (d : ℝ) :
    (chaseOrPatrol rng e p d).shootCd = e.shootCd := by
  unfold chaseOrPatrol
  dsimp only
  split_ifs <;> rfl

/-- The movement half of updateEnemy never touches the last-shot stamp. -/
theorem chaseOrPatrol_lastShotTime (rng : PatrolRng) (e : Enemy) (p : Pos) (d : ℝ) :
    (chaseOrPatrol rng e p d).lastShotTime = e.lastShotTime := by
  unfold chaseOrPatrol
  dsimp only
  split_ifs <;> rfl

/-- The bob animation never touches the last-shot stamp. -/
theorem bobStep_lastShotTime (e : Enemy) (t : ℚ) :
    (bobStep e t).lastShotTime = e.lastShotTime := rfl

/-- A concrete wizrobe as _createEnemies builds it, with its initial shot
stagger at 0 so the 2500 ms cooldown has long expired by t = 5000. -/
noncomputable def wizTest : Enemy :=
  { type := EnemyType.wizrobe
    hp := 1
    isDying := false
    bodyEnabled := true
    x := 0
    y := 0
    vx := 0
    vy := 0
    tint := none
    scale := 1
    speedMult := some 0.7
    shoots := true
    projSpeed := some 80
    shootCd := some 2500
    lastShotTime := some 0
    patrolTimer := 0
    patrolTargetX := 0
    patrolTargetY := 0
    isChasing := false }

/-- C3 (failing-input evaluation): a wizrobe 100 px from the player — within
the extended 1.5 times CHASE_RANGE shooting range — with its 2500 ms cooldown
long expired at t = 5000 has its last-shot stamp reset to 5000 by
updateEnemy, yet the frame update of the scene leaves the projectile group
empty: the claimed projectile is never fired, because the per-frame path
(_updateEnemies, then the extracted updateEnemies and updateEnemy) never
calls _enemyShoot. -/
theorem C3_shot_stamped_but_never_fired :
    (updateEnemy ⟨3000, 0, 0⟩ wizTest ⟨100, 0⟩ 5000).lastShotTime = some 5000 ∧
    (sceneUpdateEnemies (fun _ => ⟨3000, 0, 0⟩) ⟨[wizTest], []⟩ ⟨100, 0⟩ 5000).projectiles
      = [] := by
  constructor
  · have hdist : distanceBetween wizTest.x wizTest.y (Pos.mk 100 0).x (Pos.mk 100 0).y
        = 100 := by
      unfold distanceBetween wizTest
      dsimp only
      rw [show ((100:ℝ) - 0) ^ 2 + ((0:ℝ) - 0) ^ 2 = 100 ^ 2 by norm_num]
      exact Real.sqrt_sq (by norm_num)
    unfold updateEnemy
    rw [if_neg (by simp [wizTest])]
    dsimp only
    rw [bobStep_lastShotTime, hdist]
    unfold shootStep
    rw [if_pos ?cond]
    case cond =>
      constructor
      · rw [chaseOrPatrol_shoots]
        rfl
      · norm_num [CHASE_RANGE]
    dsimp only
    rw [chaseOrPatrol_lastShotTime, chaseOrPatrol_shootCd]
    rw [show wizTest.lastShotTime = some 0 from rfl, show wizTest.shootCd = some 2500 from rfl]
    rw [show (some (0:ℚ)).getD 0 = 0 from rfl]
    rw [show jsOrQ (some 2500) 2500 = 2500 from rfl]
    rw [if_pos (by norm_num)]
  · rfl

/-! ## Map shape invariants for C4 -/

/-- The shape and cell invariant of a generated grid: exactly rows rows, each
of length cols, every cell 0, 1 or 2. -/
def GoodGrid (cols rows : ℕ) (m : List (List ℤ)) : Prop :=
  m.length = rows ∧ (∀ row ∈ m, row.length = cols) ∧
    ∀ row ∈ m, ∀ v ∈ row, v = 0 ∨ v = 1 ∨ v = 2

/-- The random fill produces a well-shaped grid of cells 0, 1 and 2. -/
theorem initialMap_good (cols rows : ℕ) (rng : ℕ → ℕ → ℚ) :
    GoodGrid cols rows (initialMap cols rows rng) := by
  refine ⟨?_, ?_, ?_⟩
  · simp [initialMap]
  · intro row hrow
    simp only [initialMap, List.mem_map, List.mem_range] at hrow
    obtain ⟨r, hr, rfl⟩ := hrow
    simp
  · intro row hrow v hv
    simp only [initialMap, List.mem_map, List.mem_range] at hrow
    obtain ⟨r, hr, rfl⟩ := hrow
    simp only [List.mem_map, List.mem_range] at hv
    obtain ⟨c, hc, rfl⟩ := hv
    split_ifs <;> simp

/-- An in-bounds JavaScript cell write on a well-shaped grid succeeds and
preserves the invariant. -/
theorem jsWriteCell_good {cols rows : ℕ} {m : List (List ℤ)} (hm : GoodGrid cols rows m)
    {r c v : ℤ} (hr0 : 0 ≤ r) (hrlt : r < (rows : ℤ)) (hc0 : 0 ≤ c) (hclt : c < (cols : ℤ))
    (hv : v = 0 ∨ v = 1 ∨ v = 2) :
    ∃ m2, jsWriteCell m r c v = some m2 ∧ GoodGrid cols rows m2 := by
  obtain ⟨hlen, hrows, hcells⟩ := hm
  have hrnat : r.toNat < m.length := by omega
  have hget : jsIndex m r = some m[r.toNat] := by
    unfold jsIndex
    rw [if_pos hr0]
    exact List.getElem?_eq_getElem hrnat
  have hrowmem : m[r.toNat] ∈ m := List.getElem_mem hrnat
  have hrowlen : m[r.toNat].length = cols := hrows _ hrowmem
  have hcnat : c.toNat < m[r.toNat].length := by omega
  have hset : jsArraySet m[r.toNat] c v = m[r.toNat].set c.toNat v := by
    unfold jsArraySet
    rw [if_neg (by omega), if_pos hcnat]
  refine ⟨m.set r.toNat (m[r.toNat].set c.toNat v), ?_, ?_, ?_, ?_⟩
  · unfold jsWriteCell
    rw [hget]
    dsimp only
    rw [hset]
  · rw [List.length_set]
    exact hlen
  · intro row hrow
    rcases List.mem_or_eq_of_mem_set hrow with h | h
    · exact hrows row h
    · rw [h, List.length_set]
      exact hrowlen
  · intro row hrow w hw
    rcases List.mem_or_eq_of_mem_set hrow with h | h
    · exact hcells row h w hw
    · rw [h] at hw
      rcases List.mem_or_eq_of_mem_set hw with h2 | h2
      · exact hcells _ hrowmem w h2
      · rw [h2]
        exact hv

/-- The horizontal carve fold succeeds on any list of in-range columns and
preserves the grid invariant, given at least 3 columns and 2 rows. -/
theorem carveH_fold_good {cols rows : ℕ} (h3 : 3 ≤ cols) (h2 : 2 ≤ rows) :
    ∀ l : List ℕ, (∀ x ∈ l, 1 ≤ x ∧ x ≤ cols - 2) →
    ∀ m : List (List ℤ), GoodGrid cols rows m →
    ∃ m2, l.foldl (carveStepH ((rows / 2 : ℕ) : ℤ)) (some m) = some m2 ∧
      GoodGrid cols rows m2 := by
  intro l
  induction l with
  | nil =>
    intro _ m hm
    exact ⟨m, rfl, hm⟩
  | cons cHead rest ih =>
    intro hbound m hm
    have hc := hbound cHead (List.mem_cons_self _ _)
    obtain ⟨m1, hw1, hg1⟩ := jsWriteCell_good hm
      (r := ((rows / 2 : ℕ) : ℤ)) (c := (cHead : ℤ)) (v := 0)
      (by omega) (by omega) (by omega) (by omega) (Or.inl rfl)
    obtain ⟨m2, hw2, hg2⟩ := jsWriteCell_good hg1
      (r := ((rows / 2 : ℕ) : ℤ) - 1) (c := (cHead : ℤ)) (v := 0)
      (by omega) (by omega) (by omega) (by omega) (Or.inl rfl)
    have hstep : carveStepH ((rows / 2 : ℕ) : ℤ) (some m) cHead = some m2 := by
      unfold carveStepH
      rw [Option.some_bind, hw1, Option.some_bind]
      exact hw2
    rw [List.foldl_cons, hstep]
    exact ih (fun x hx => hbound x (List.mem_cons_of_mem _ hx)) m2 hg2

/-- The vertical carve fold succeeds on any list of in-range rows and
preserves the grid invariant, given at least 3 columns and 2 rows. -/
theorem carveV_fold_good {cols rows : ℕ} (h3 : 3 ≤ cols) (h2 : 2 ≤ rows) :
    ∀ l : List ℕ, (∀ x ∈ l, 1 ≤ x ∧ x ≤ rows - 2) →
    ∀ m : List (List ℤ), GoodGrid cols rows m →
    ∃ m2, l.foldl (carveStepV ((cols / 2 : ℕ) : ℤ)) (some m) = some m2 ∧
      GoodGrid cols rows m2 := by
  intro l
  induction l with
  | nil =>
    intro _ m hm
    exact ⟨m, rfl, hm⟩
  | cons rHead rest ih =>
    intro hbound m hm
    have hr := hbound rHead (List.mem_cons_self _ _)
    obtain ⟨m1, hw1, hg1⟩ := jsWriteCell_good hm
      (r := (rHead : ℤ)) (c := ((cols / 2 : ℕ) : ℤ)) (v := 0)
      (by omega) (by omega) (by omega) (by omega) (Or.inl rfl)
    obtain ⟨m2, hw2, hg2⟩ := jsWriteCell_good hg1
      (r := (rHead : ℤ)) (c := ((cols / 2 : ℕ) : ℤ) + 1) (v := 0)
      (by omega) (by omega) (by omega) (by omega) (Or.inl rfl)
    have hstep : carveStepV ((cols / 2 : ℕ) : ℤ) (some m) rHead = some m2 := by
      unfold carveStepV
      rw [Option.some_bind, hw1, Option.some_bind]
      exact hw2
    rw [List.foldl_cons, hstep]
    exact ih (fun x hx => hbound x (List.mem_cons_of_mem _ hx)) m2 hg2

/-- C4 (amended): for at least 3 requested columns and 2 requested rows,
generateMap returns (without throwing) a grid with exactly rows rows, each
of length exactly cols, and every cell 0, 1 or 2.  (For tinier sizes the
carve loops throw or extend a row: see the counterexample.) -/
theorem C4_map_shape (cols rows : ℕ) (rng : ℕ → ℕ → ℚ)
    (h3 : 3 ≤ cols) (h2 : 2 ≤ rows) :
    ∃ m, generateMap cols rows rng = some m ∧ m.length = rows ∧
      (∀ row ∈ m, row.length = cols) ∧
      ∀ row ∈ m, ∀ v ∈ row, v = 0 ∨ v = 1 ∨ v = 2 := by
  obtain ⟨m1, hm1, hg1⟩ := carveH_fold_good h3 h2 (List.range' 1 (cols - 2))
    (fun x hx => by
      have := List.mem_range'_1.mp hx
      omega)
    (initialMap cols rows rng) (initialMap_good cols rows rng)
  obtain ⟨m2, hm2, hg2⟩ := carveV_fold_good h3 h2 (List.range' 1 (rows - 2))
    (fun x hx => by
      have := List.mem_range'_1.mp hx
      omega)
    m1 hg1
  refine ⟨m2, ?_, hg2.1, hg2.2.1, hg2.2.2⟩
  unfold generateMap carveHorizontal carveVertical
  rw [hm1]
  exact hm2

/-- Witness for C4 at a concrete small size. -/
theorem C4_map_shape_witness :
    ∃ m, generateMap 6 6 (fun _ _ => 0) = some m ∧ m.length = 6 ∧
      (∀ row ∈ m, row.length = 6) ∧
      ∀ row ∈ m, ∀ v ∈ row, v = 0 ∨ v = 1 ∨ v = 2 :=
  C4_map_shape 6 6 (fun _ _ => 0) (by norm_num) (by norm_num)

/-- Counterexample to C4 as stated: for cols = 2 and rows = 3 the vertical
carve writes one column past the end of the middle row; JavaScript extends
the row, so the grid comes back with a row of length 3, not 2. -/
theorem C4_small_grid_cex :
    generateMap 2 3 (fun _ _ => 0) = some [[1, 1], [1, 0, 0], [1, 1]] ∧
    ¬ ∀ row ∈ [[(1:ℤ), 1], [1, 0, 0], [1, 1]], row.length = 2 := by
  constructor
  · rfl
  · decide

/-! ## Chest placement invariants for C5 -/

/-- Two chest positions are separated by at least the configured minimum of
6 tiles (192 px), phrased through squared Euclidean distance. -/
def chestSep (p q : ChestPosition) : Prop :=
  (6 * TILE_SIZE) ^ 2 ≤ (p.x - q.x) ^ 2 + (p.y - q.y) ^ 2

/-- A chest position is the centre of an interior grass tile outside the
spawn exclusion zone. -/
def chestOk (map : List (List ℤ)) (cols rows : ℕ) (p : ChestPosition) : Prop :=
  ∃ c r : ℤ,
    p.x = (c : ℚ) * TILE_SIZE + TILE_SIZE / 2 ∧
    p.y = (r : ℚ) * TILE_SIZE + TILE_SIZE / 2 ∧
    1 ≤ c ∧ c ≤ (cols : ℤ) - 2 ∧ 1 ≤ r ∧ r ≤ (rows : ℤ) - 2 ∧
    ¬(|c - ((cols / 2 : ℕ) : ℤ)| < 4 ∧ |r - ((rows / 2 : ℕ) : ℤ)| < 4) ∧
    ∃ row, jsIndex map r = some row ∧ jsIndex row c = some 0

/-- The sampled tile index floor(u * (n - 4)) + 2 lies between 2 and n - 2
when u is a Math.random draw and n is at least 4. -/
theorem sample_bounds {n : ℕ} (h4 : 4 ≤ n) {u : ℚ} (h0 : 0 ≤ u) (h1 : u < 1) :
    2 ≤ ⌊u * ((n : ℚ) - 4)⌋ + 2 ∧ ⌊u * ((n : ℚ) - 4)⌋ + 2 ≤ (n : ℤ) - 2 := by
  have hk : (0:ℚ) ≤ (n : ℚ) - 4 := by
    have : (4:ℚ) ≤ (n : ℚ) := by exact_mod_cast h4
    linarith
  constructor
  · have : (0:ℤ) ≤ ⌊u * ((n : ℚ) - 4)⌋ := Int.floor_nonneg.mpr (mul_nonneg h0 hk)
    omega
  · have hle : u * ((n : ℚ) - 4) ≤ (n : ℚ) - 4 := by nlinarith
    have hmono : ⌊u * ((n : ℚ) - 4)⌋ ≤ ⌊(n : ℚ) - 4⌋ := Int.floor_le_floor hle
    have hfl : ⌊(n : ℚ) - 4⌋ = (n : ℤ) - 4 := by
      rw [show ((n : ℚ) - 4) = (((n : ℤ) - 4 : ℤ) : ℚ) by push_cast; ring]
      exact Int.floor_intCast _
    omega

/-- The rejection-sampling loop preserves the chest invariants: at most count
positions, pairwise separation, and each position an interior non-spawn
grass-tile centre. -/
theorem chestLoop_inv (map : List (List ℤ)) (count cols rows : ℕ) (rng : ℕ → ℚ)
    (hrng : ∀ i, 0 ≤ rng i ∧ rng i < 1) (hc : 4 ≤ cols) (hr : 4 ≤ rows) :
    ∀ (fuel attempts : ℕ) (acc : List ChestPosition),
      acc.length ≤ count → List.Pairwise chestSep acc →
      (∀ p ∈ acc, chestOk map cols rows p) →
      ∀ ps, chestLoop map count cols rows rng fuel attempts acc = some ps →
        ps.length ≤ count ∧ List.Pairwise chestSep ps ∧
          ∀ p ∈ ps, chestOk map cols rows p := by
  intro fuel
  induction fuel with
  | zero =>
    intro attempts acc hlen hpw hok ps hres
    simp only [chestLoop, Option.some.injEq] at hres
    subst hres
    exact ⟨hlen, hpw, hok⟩
  | succ fuel ih =>
    intro attempts acc hlen hpw hok ps hres
    simp only [chestLoop] at hres
    by_cases hlt : acc.length < count
    case neg =>
      rw [if_neg hlt] at hres
      injection hres with h
      subst h
      exact ⟨hlen, hpw, hok⟩
    rw [if_pos hlt] at hres
    obtain ⟨hu0, hu1⟩ := hrng (2 * attempts)
    obtain ⟨hv0, hv1⟩ := hrng (2 * attempts + 1)
    obtain ⟨hcl, hcu⟩ := sample_bounds hc hu0 hu1
    obtain ⟨hrl, hru⟩ := sample_bounds hr hv0 hv1
    set cI : ℤ := ⌊rng (2 * attempts) * ((cols : ℚ) - 4)⌋ + 2 with hcI
    set rI : ℤ := ⌊rng (2 * attempts + 1) * ((rows : ℚ) - 4)⌋ + 2 with hrI
    cases hidx : jsIndex map rI with
    | none =>
      rw [hidx] at hres
      exact absurd hres (by simp)
    | some row =>
      rw [hidx] at hres
      dsimp only at hres
      cases hidx2 : jsIndex row cI with
      | none =>
        rw [hidx2] at hres
        exact ih (attempts + 1) acc hlen hpw hok ps hres
      | some tile =>
        rw [hidx2] at hres
        dsimp only at hres
        by_cases htile : tile ≠ 0
        · rw [if_pos htile] at hres
          exact ih (attempts + 1) acc hlen hpw hok ps hres
        · rw [if_neg htile] at hres
          push_neg at htile
          subst htile
          by_cases hspawn : |cI - ((cols / 2 : ℕ) : ℤ)| < 4 ∧ |rI - ((rows / 2 : ℕ) : ℤ)| < 4
          · rw [if_pos hspawn] at hres
            exact ih (attempts + 1) acc hlen hpw hok ps hres
          · rw [if_neg hspawn] at hres
            by_cases hclose : acc.any (fun p =>
                hypotLt (p.x - ((cI : ℚ) * TILE_SIZE + TILE_SIZE / 2))
                  (p.y - ((rI : ℚ) * TILE_SIZE + TILE_SIZE / 2)) (6 * TILE_SIZE)) = true
            · rw [if_pos hclose] at hres
              exact ih (attempts + 1) acc hlen hpw hok ps hres
            · rw [if_neg hclose] at hres
              have hfar : ∀ p ∈ acc,
                  chestSep p ⟨(cI : ℚ) * TILE_SIZE + TILE_SIZE / 2,
                    (rI : ℚ) * TILE_SIZE + TILE_SIZE / 2⟩ := by
                intro p hp
                have hb : ¬ (hypotLt (p.x - ((cI : ℚ) * TILE_SIZE + TILE_SIZE / 2))
                    (p.y - ((rI : ℚ) * TILE_SIZE + TILE_SIZE / 2)) (6 * TILE_SIZE) = true) := by
                  intro hbt
                  exact hclose (List.any_eq_true.mpr ⟨p, hp, hbt⟩)
                unfold hypotLt at hb
                rw [decide_eq_true_eq] at hb
                unfold chestSep
                dsimp only
                linarith [not_lt.mp hb]
              apply ih (attempts + 1)
                (acc ++ [⟨(cI : ℚ) * TILE_SIZE + TILE_SIZE / 2,
                  (rI : ℚ) * TILE_SIZE + TILE_SIZE / 2⟩])
                ?_ ?_ ?_ ps hres
              · rw [List.length_append]
                simp only [List.length_singleton]
                omega
              · rw [List.pairwise_append]
                refine ⟨hpw, List.pairwise_singleton _ _, ?_⟩
                intro a ha b hb
                rw [List.mem_singleton] at hb
                subst hb
                exact hfar a ha
              · intro p hp
                rw [List.mem_append, List.mem_singleton] at hp
                rcases hp with hp | hp
                · exact hok p hp
                · subst hp
                  refine ⟨cI, rI, rfl, rfl, by omega, by omega, by omega, by omega,
                    hspawn, row, hidx, hidx2⟩

/-- C5: every successfully returned chest list has at most count positions,
no two closer than 192 px, and every position the centre of an interior
grass tile outside the spawn exclusion zone. -/
theorem C5_chest_invariants (map : List (List ℤ)) (count cols rows : ℕ) (rng : ℕ → ℚ)
    (hrng : ∀ i, 0 ≤ rng i ∧ rng i < 1) (hc : 4 ≤ cols) (hr : 4 ≤ rows)
    (ps : List ChestPosition)
    (hres : generateChestPositions map count cols rows rng = some ps) :
    ps.length ≤ count ∧ List.Pairwise chestSep ps ∧
      ∀ p ∈ ps, chestOk map cols rows p :=
  chestLoop_inv map count cols rows rng hrng hc hr 1000 0 []
    (by simp) (by simp) (by simp) ps hres

/-- Witness for C5 on a concrete all-grass 12 by 12 map with a constant rng:
the loop returns exactly one chest at (80, 80). -/
theorem C5_chest_invariants_witness :
    ([⟨80, 80⟩] : List ChestPosition).length ≤ 1 ∧
    List.Pairwise chestSep [⟨80, 80⟩] ∧
    ∀ p ∈ ([⟨80, 80⟩] : List ChestPosition),
      chestOk (List.replicate 12 (List.replicate 12 0)) 12 12 p :=
  C5_chest_invariants (List.replicate 12 (List.replicate 12 0)) 1 12 12 (fun _ => 0)
    (fun _ => ⟨by norm_num, by norm_num⟩) (by norm_num) (by norm_num)
    [⟨80, 80⟩] (by
      have step1 : chestLoop (List.replicate 12 (List.replicate 12 0)) 1 12 12
          (fun _ => 0) 1000 0 []
          = chestLoop (List.replicate 12 (List.replicate 12 0)) 1 12 12
            (fun _ => 0) 999 1 [⟨80, 80⟩] := by
        show chestLoop (List.replicate 12 (List.replicate 12 0)) 1 12 12
          (fun _ => 0) (999 + 1) 0 [] = _
        rw [chestLoop]
        norm_num [jsIndex, TILE_SIZE, hypotLt, List.getElem?_replicate]
      have step2 : chestLoop (List.replicate 12 (List.replicate 12 0)) 1 12 12
          (fun _ => 0) 999 1 [⟨80, 80⟩] = some [⟨80, 80⟩] := by
        show chestLoop (List.replicate 12 (List.replicate 12 0)) 1 12 12
          (fun _ => 0) (998 + 1) 1 [⟨80, 80⟩] = _
        rw [chestLoop]
        norm_num
      rw [generateChestPositions, step1, step2])

end WildAdventure
